import Mathlib

/-!
Verification development for the Gazelle training/decoding notebook
(`Gazelle_cleaned.ipynb`).

The notebook is a linear script: an environment guard (GPU check and
fixed-seed initialisation), a dataset load, the `GazelleConfig` and
`GazelleModel` definitions, a bounded training loop with a cross-entropy
loss, and a greedy autoregressive `generate` loop.  This file gives a
shallow embedding of those pieces, working at the token-id level: the
forward pass of the network is kept abstract (a function from parameters
and a token-id sequence to per-position logit rows), while the original
orchestration logic — argmax selection, the append/stop structure of the
decoding loop, the iteration cap of the training loop, the loss pairing,
the divisibility check performed when constructing the attention layers,
and the guard-first cell ordering — is embedded faithfully and verified.
-/

namespace Gazelle

/--
Abstract sequence model.  `params` stands for the weight tensors owned by
the module, `training` for the train/eval mode flag toggled by
`model.eval()`, and `arch` for the architecture: given the current
parameters and a token-id sequence it returns one logit row (a list of
logit values indexed by token id) per input position, matching the
notebook model's `(batch, seq, vocab)` output at batch size 1.
-/
structure Model where
  params : List (List Int)
  training : Bool
  arch : List (List Int) → List Nat → List (List Int)

/-- Forward pass: `model(x)` applies the architecture to the current
parameters, i.e. embedding → encoder stack → final norm → head. -/
def Model.forward (m : Model) (ids : List Nat) : List (List Int) :=
  m.arch m.params ids

/-- `model.eval()`: switches the module to evaluation mode; parameters
are untouched. -/
def Model.evalMode (m : Model) : Model :=
  { m with training := false }

/-- Maximum value of a list of logits (the value `torch.argmax` locates). -/
def listMax : List Int → Int
  | [] => 0
  | [x] => x
  | x :: y :: t => max x (listMax (y :: t))

/-- Index of a maximal element of a logit row, as computed by
`torch.argmax` on a one-dimensional tensor; ties resolve to the lowest
index. -/
def argmax : List Int → Nat
  | [] => 0
  | [_] => 0
  | x :: y :: t => if x < listMax (y :: t) then argmax (y :: t) + 1 else 0

theorem argmax_lt_length : ∀ (l : List Int), l ≠ [] → argmax l < l.length := by
  intro l
  induction l with
  | nil => intro h; exact absurd rfl h
  | cons x t ih =>
    intro _
    cases t with
    | nil => simp [argmax]
    | cons y t2 =>
      by_cases hx : x < listMax (y :: t2)
      · have h2 := ih (by simp)
        simp only [argmax, if_pos hx, List.length_cons] at h2 ⊢
        omega
      · simp [argmax, if_neg hx]

theorem getD_argmax_eq_listMax :
    ∀ (l : List Int), l ≠ [] → l.getD (argmax l) 0 = listMax l := by
  intro l
  induction l with
  | nil => intro h; exact absurd rfl h
  | cons x t ih =>
    intro _
    cases t with
    | nil => simp [argmax, listMax]
    | cons y t2 =>
      by_cases hx : x < listMax (y :: t2)
      · have hrec := ih (by simp)
        simp only [argmax, listMax, if_pos hx, List.getD_cons_succ]
        rw [hrec]
        exact (max_eq_right (le_of_lt hx)).symm
      · simp only [argmax, listMax, if_neg hx, List.getD_cons_zero]
        exact (max_eq_left (le_of_not_lt hx)).symm

theorem get_le_listMax :
    ∀ (l : List Int) (j : Nat) (hj : j < l.length), l.get ⟨j, hj⟩ ≤ listMax l := by
  intro l
  induction l with
  | nil => intro j hj; simp at hj
  | cons x t ih =>
    intro j hj
    cases t with
    | nil =>
      cases j with
      | zero => simp [listMax]
      | succ j2 => simp at hj
    | cons y t2 =>
      cases j with
      | zero => simp [listMax]
      | succ j2 =>
        have hj2 : j2 < (y :: t2).length := by simpa using hj
        have := ih j2 hj2
        simp only [listMax, List.get]
        exact le_trans this (le_max_right x (listMax (y :: t2)))

/-!
Generation loop (`generate` in the notebook):

```
def generate(prompt, max_new_tokens=50):
    model.eval()
    with torch.no_grad():
        ids = tokenizer(prompt, return_tensors='pt').input_ids.cuda()
        for _ in range(max_new_tokens):
            logits = model(ids)
            next_id = torch.argmax(logits[:, -1], dim=-1, keepdim=True)
            ids = torch.cat([ids, next_id], dim=-1)
            if next_id.item() == tokenizer.eos_token_id:
                break
    return tokenizer.decode(ids[0])
```
-/

/-- Logit row at the last position, `logits[:, -1]`, after running the
model on the current full sequence. -/
def lastLogits (m : Model) (ids : List Nat) : List Int :=
  (m.forward ids).getLastD []

/-- Token id produced by one greedy step:
`torch.argmax(logits[:, -1], dim=-1)`. -/
def nextTok (m : Model) (ids : List Nat) : Nat :=
  argmax (lastLogits m ids)

/-- Body of `for _ in range(max_new_tokens)`: compute the greedy next id,
append it (`torch.cat`), and break when it equals `tokenizer.eos_token_id`.
The fuel argument counts the remaining loop iterations. -/
def generateLoop (m : Model) (eos : Nat) : Nat → List Nat → List Nat
  | 0, ids => ids
  | n + 1, ids =>
      let nextId := nextTok m ids
      let ids2 := ids ++ [nextId]
      if nextId = eos then ids2 else generateLoop m eos n ids2

/-- The full `generate` call at the token-id level: switch the model to
evaluation mode, then run the greedy loop starting from the tokenized
prompt.  Returns the final id sequence together with the model object as
it stands after the call. -/
def generate (m : Model) (eos : Nat) (prompt : List Nat) (maxNewTokens : Nat) :
    List Nat × Model :=
  (generateLoop m.evalMode eos maxNewTokens prompt, m.evalMode)

/-- Greedy trajectory with no stopping: `traj m p n` is the sequence after
`n` unconditional greedy append steps from `p`. -/
def traj (m : Model) (p : List Nat) : Nat → List Nat
  | 0 => p
  | n + 1 => traj m p n ++ [nextTok m (traj m p n)]

theorem traj_length (m : Model) (p : List Nat) :
    ∀ n, (traj m p n).length = p.length + n := by
  intro n
  induction n with
  | zero => rfl
  | succ n ih => simp [traj, ih]; omega

theorem traj_shift (m : Model) (p : List Nat) :
    ∀ n, traj m p (n + 1) = traj m (p ++ [nextTok m p]) n := by
  intro n
  induction n with
  | zero => rfl
  | succ n ih =>
    show traj m p (n + 1) ++ [nextTok m (traj m p (n + 1))] = _
    rw [ih]
    rfl

/-- The generation loop never reads the training-mode flag: two models
with the same greedy step function run it identically. -/
theorem generateLoop_congr (m1 m2 : Model) (eos : Nat)
    (h : ∀ ids, nextTok m1 ids = nextTok m2 ids) :
    ∀ n ids, generateLoop m1 eos n ids = generateLoop m2 eos n ids := by
  intro n
  induction n with
  | zero => intro ids; rfl
  | succ n ih =>
    intro ids
    simp only [generateLoop, h ids]
    by_cases he : nextTok m2 ids = eos
    · simp [he]
    · simp [he, ih]

theorem nextTok_evalMode (m : Model) (ids : List Nat) :
    nextTok m.evalMode ids = nextTok m ids := rfl

/-- As long as no greedy step hits the end-of-sequence id, the loop
follows the unconditional greedy trajectory. -/
theorem generateLoop_eq_traj (m : Model) (eos : Nat) :
    ∀ (n : Nat) (ids : List Nat),
      (∀ j, j < n → nextTok m (traj m ids j) ≠ eos) →
      generateLoop m eos n ids = traj m ids n := by
  intro n
  induction n with
  | zero => intro ids _; rfl
  | succ n ih =>
    intro ids h
    have h0 : nextTok m ids ≠ eos := h 0 (Nat.succ_pos n)
    simp only [generateLoop, if_neg h0]
    have hrec : generateLoop m eos n (ids ++ [nextTok m ids]) =
        traj m (ids ++ [nextTok m ids]) n := by
      apply ih
      intro j hj
      rw [← traj_shift]
      exact h (j + 1) (Nat.succ_lt_succ hj)
    rw [hrec, ← traj_shift]

/-- If the first `k` greedy steps avoid the end-of-sequence id and step
`k + 1` produces it, the loop with at least `k + 1` iterations of fuel
stops right after appending it. -/
theorem generateLoop_first_eos (m : Model) (eos : Nat) :
    ∀ (k n : Nat) (ids : List Nat),
      (∀ j, j < k → nextTok m (traj m ids j) ≠ eos) →
      nextTok m (traj m ids k) = eos →
      k < n →
      generateLoop m eos n ids = traj m ids (k + 1) := by
  intro k
  induction k with
  | zero =>
    intro n ids _ heq hn
    cases n with
    | zero => exact absurd hn (Nat.lt_irrefl 0)
    | succ n2 =>
      simp only [generateLoop, if_pos (show nextTok m ids = eos from heq)]
      rfl
  | succ k ih =>
    intro n ids hne heq hn
    have h0 : nextTok m ids ≠ eos := hne 0 (Nat.succ_pos k)
    cases n with
    | zero => exact absurd hn (Nat.not_lt_zero (k + 1))
    | succ n2 =>
      simp only [generateLoop, if_neg h0]
      have hrec : generateLoop m eos n2 (ids ++ [nextTok m ids]) =
          traj m (ids ++ [nextTok m ids]) (k + 1) := by
        apply ih
        · intro j hj
          rw [← traj_shift]
          exact hne (j + 1) (Nat.succ_lt_succ hj)
        · rw [← traj_shift]
          exact heq
        · exact Nat.lt_of_succ_lt_succ hn
      rw [hrec, ← traj_shift]

/-- When the model never emits `eos`, generation follows the full greedy
trajectory; shared by the termination and context-length claims. -/
theorem generate_eq_traj_of_no_eos (m : Model) (eos : Nat) (p : List Nat) (n : Nat)
    (h : ∀ ids, nextTok m ids ≠ eos) :
    (generate m eos p n).1 = traj m p n := by
  have hcongr := generateLoop_congr m.evalMode m eos (fun ids => rfl) n p
  have htraj := generateLoop_eq_traj m eos n p (fun j _ => h (traj m p j))
  show generateLoop m.evalMode eos n p = traj m p n
  rw [hcongr, htraj]

/-- Generation output length when the model never emits `eos`. -/
theorem generate_length_of_no_eos (m : Model) (eos : Nat) (p : List Nat) (n : Nat)
    (h : ∀ ids, nextTok m ids ≠ eos) :
    ((generate m eos p n).1).length = p.length + n := by
  rw [generate_eq_traj_of_no_eos m eos p n h, traj_length]

/-!
Configuration and model construction (`GazelleConfig`, `GazelleModel`).
-/

/-- Hyperparameter record, with the notebook's default values. -/
structure GazelleConfig where
  n_layer : Nat := 12
  n_embd : Nat := 1536
  n_head : Nat := 24
  vocab_size : Nat := 65536
  ctx_len : Nat := 512

/-- One encoder block of the stack; only the constructor arguments are
recorded, the numerics stay abstract. -/
structure TransformerEncoderLayer where
  dModel : Nat
  nHead : Nat

/-- Models the external `nn.TransformerEncoderLayer(d_model, nhead)`
constructor called by `GazelleModel.__init__`.  Per the library's
documented contract, it builds an `nn.MultiheadAttention`, which rejects
an embedding dimension that is not evenly divisible by the number of
heads instead of constructing silently. -/
def TransformerEncoderLayer.make (dModel nHead : Nat) :
    Except String TransformerEncoderLayer :=
  if dModel % nHead = 0 then Except.ok ⟨dModel, nHead⟩
  else Except.error "embed_dim must be divisible by num_heads"

/-- The module layout built by `GazelleModel.__init__`: an embedding
table, the encoder stack, the final layer norm, and the linear head. -/
structure GazelleModel where
  embedding : Nat × Nat
  layers : List TransformerEncoderLayer
  ln_f : Nat
  head : Nat × Nat

/-- The list comprehension
`[nn.TransformerEncoderLayer(config.n_embd, config.n_head) for _ in range(config.n_layer)]`:
each of the `n_layer` constructor calls may fail. -/
def buildLayers (dModel nHead : Nat) : Nat → Except String (List TransformerEncoderLayer)
  | 0 => Except.ok []
  | n + 1 => do
      let layer ← TransformerEncoderLayer.make dModel nHead
      let rest ← buildLayers dModel nHead n
      Except.ok (layer :: rest)

/-- `GazelleModel.__init__(config)`: builds the embedding of shape
`(vocab_size, n_embd)`, the encoder stack, the final norm over `n_embd`,
and the head of shape `(n_embd, vocab_size)`. -/
def GazelleModel.init (config : GazelleConfig) : Except String GazelleModel := do
  let layers ← buildLayers config.n_embd config.n_head config.n_layer
  Except.ok
    { embedding := (config.vocab_size, config.n_embd)
      layers := layers
      ln_f := config.n_embd
      head := (config.n_embd, config.vocab_size) }

/-- The notebook's `config = GazelleConfig()`. -/
def defaultConfig : GazelleConfig := {}

theorem buildLayers_ok (dModel nHead : Nat) (h : dModel % nHead = 0) :
    ∀ n, buildLayers dModel nHead n =
      Except.ok (List.replicate n ⟨dModel, nHead⟩) := by
  intro n
  induction n with
  | zero => rfl
  | succ n ih =>
    simp [buildLayers, TransformerEncoderLayer.make, if_pos h, ih,
      List.replicate_succ]
    rfl

theorem buildLayers_error (dModel nHead : Nat) (h : dModel % nHead ≠ 0) :
    ∀ n, 0 < n → buildLayers dModel nHead n =
      Except.error "embed_dim must be divisible by num_heads" := by
  intro n hn
  cases n with
  | zero => exact absurd hn (Nat.lt_irrefl 0)
  | succ n2 =>
    simp [buildLayers, TransformerEncoderLayer.make, if_neg h]
    rfl

/-!
Training loop (the cell after `optimizer = torch.optim.AdamW(...)`):

```
for i, batch in enumerate(loader):
    if i > 10:  # tiny demo
        break
    input_ids = batch['input_ids'].cuda()
    logits = model(input_ids)
    loss = nn.functional.cross_entropy(logits.view(-1, logits.size(-1)),
                                        input_ids.view(-1))
    loss.backward()
    optimizer.step()
    optimizer.zero_grad()
```
-/

/-- The pairing performed by
`cross_entropy(logits.view(-1, logits.size(-1)), input_ids.view(-1))` at
batch size 1: row `i` of the flattened logits is scored against element
`i` of the flattened target vector, which is the batch's own `input_ids`. -/
def lossPairs (m : Model) (inputIds : List Nat) : List (List Int × Nat) :=
  (m.forward inputIds).zip inputIds

/-- Abstract `AdamW` optimizer: one `optimizer.step()` maps the current
parameters, given the loss pairing the gradients flow from, to updated
parameters. -/
structure Optimizer where
  step : List (List Int) → List (List Int × Nat) → List (List Int)

/-- The enumerated training loop: `i` is the `enumerate` counter, `cap`
the literal of the `if i > 10: break` guard.  Each non-broken iteration
runs the forward pass and loss pairing, applies one optimizer step, and
is counted; the result is the final model and the number of optimizer
updates performed. -/
def trainLoopAux (opt : Optimizer) (cap : Nat) :
    Nat → Model → List (List Nat) → Model × Nat
  | _, m, [] => (m, 0)
  | i, m, batch :: rest =>
      if cap < i then (m, 0)
      else
        let pairs := lossPairs m batch
        let m2 := { m with params := opt.step m.params pairs }
        let r := trainLoopAux opt cap (i + 1) m2 rest
        (r.1, r.2 + 1)

/-- The training loop entered with `enumerate` starting at 0. -/
def trainLoop (opt : Optimizer) (cap : Nat) (m : Model) (batches : List (List Nat)) :
    Model × Nat :=
  trainLoopAux opt cap 0 m batches

theorem trainLoopAux_count (opt : Optimizer) (cap : Nat) :
    ∀ (batches : List (List Nat)) (i : Nat) (m : Model),
      (trainLoopAux opt cap i m batches).2 = min (cap + 1 - i) batches.length := by
  intro batches
  induction batches with
  | nil => intro i m; simp [trainLoopAux]
  | cons b rest ih =>
    intro i m
    by_cases hi : cap < i
    · have hz : cap + 1 - i = 0 := by omega
      simp [trainLoopAux, if_pos hi, hz]
    · simp only [trainLoopAux, if_neg hi]
      rw [ih]
      simp only [List.length_cons]
      omega

/-!
Tokenization at the id level.  Training-time `encode` calls
`tokenizer(example['text'], truncation=True, padding='max_length',
max_length=config.ctx_len)`; `generate` calls
`tokenizer(prompt, return_tensors='pt')` with no truncation or padding.
Both are modelled on the raw id sequence the tokenizer would produce.
-/

/-- Truncation then right-padding to exactly `ctxLen`, as in the
training-time `encode`. -/
def encodeTrain (ctxLen padId : Nat) (tokens : List Nat) : List Nat :=
  let truncated := tokens.take ctxLen
  truncated ++ List.replicate (ctxLen - truncated.length) padId

/-- The prompt tokenization inside `generate`: the raw id sequence,
with no truncation and no padding. -/
def encodeGen (tokens : List Nat) : List Nat :=
  tokens

theorem encodeTrain_length (ctxLen padId : Nat) (tokens : List Nat) :
    (encodeTrain ctxLen padId tokens).length = ctxLen := by
  simp only [encodeTrain, List.length_append, List.length_replicate,
    List.length_take]
  omega

/-!
Script-level cell ordering.  The notebook runs, in order: the
environment guard, the pip install, the dataset load, then the cell that
builds the config/model/tokenizer and runs the training loop, then
generation.  An exception in a cell stops everything after it.
-/

/-- Observable effects of the notebook cells. -/
inductive Event where
  | torchSeeded : Nat → Event
  | npSeeded : Nat → Event
  | datasetLoaded : Event
  | modelConstructed : Event
  | tokenizerLoaded : Event
  | datasetTokenized : Event
  | trainingRan : Event
  | generationRan : Event
  deriving DecidableEq

/-- The first cell: if `torch.cuda.is_available()` then seed torch and
numpy with the fixed seed 42, else `raise RuntimeError('GPU required')`. -/
def environmentGuard (cudaAvailable : Bool) : Except String (Nat × Nat) :=
  if cudaAvailable then Except.ok (42, 42) else Except.error "GPU required"

/-- The notebook executed top to bottom: the trace of effects that
actually happened, and the error the run stopped with, if any. -/
def notebookTrace (cudaAvailable : Bool) : List Event × Option String :=
  match environmentGuard cudaAvailable with
  | Except.error msg => ([], some msg)
  | Except.ok seeds =>
      match GazelleModel.init defaultConfig with
      | Except.error msg =>
          ([Event.torchSeeded seeds.1, Event.npSeeded seeds.2,
            Event.datasetLoaded], some msg)
      | Except.ok _ =>
          ([Event.torchSeeded seeds.1, Event.npSeeded seeds.2,
            Event.datasetLoaded, Event.modelConstructed,
            Event.tokenizerLoaded, Event.datasetTokenized,
            Event.trainingRan, Event.generationRan], none)

/-!
Concrete demonstration models, used to instantiate the theorems below on
computable inputs.
-/

/-- A model whose forward pass always returns the single logit row
`[0, 1]`: its greedy step always produces token 1. -/
def mConst : Model :=
  { params := [], training := true, arch := fun _ _ => [[0, 1]] }

/-- The same weights and architecture as `mConst` but already in
evaluation mode. -/
def mConstEval : Model :=
  { params := [], training := false, arch := fun _ _ => [[0, 1]] }

/-- A model that produces token 1 while the sequence has at most one
element and token 0 afterwards: decoding from a length-1 prompt first
emits 0 at the second step. -/
def mEos2 : Model :=
  { params := [], training := true,
    arch := fun _ ids => if ids.length ≤ 1 then [[0, 9]] else [[9, 0]] }

/-- A model returning one zero logit row per input position, so its
forward output has the same length as its input. -/
def mD : Model :=
  { params := [], training := true,
    arch := fun _ ids => ids.map (fun _ => ([0] : List Int)) }

theorem nextTok_mConst (ids : List Nat) : nextTok mConst ids = 1 := rfl

/-!
The claims.
-/

/-- C1: for the current token-id sequence held by the generation loop,
one step runs the model on the full sequence and takes the logits at the
last position (`lastLogits`), the selected id is an index into that row
attaining its maximum logit value (greedy argmax, no sampling), and the
loop continues from the sequence with exactly that id appended, stopping
there when it is the end-of-sequence id. -/
theorem generation_step_greedy_argmax (m : Model) (ids : List Nat) (eos n : Nat)
    (h : lastLogits m ids ≠ []) :
    nextTok m ids < (lastLogits m ids).length ∧
    (∀ j, (hj : j < (lastLogits m ids).length) →
      (lastLogits m ids).get ⟨j, hj⟩ ≤ (lastLogits m ids).getD (nextTok m ids) 0) ∧
    generateLoop m eos (n + 1) ids =
      (if nextTok m ids = eos then ids ++ [nextTok m ids]
       else generateLoop m eos n (ids ++ [nextTok m ids])) := by
  refine ⟨argmax_lt_length _ h, ?_, rfl⟩
  intro j hj
  have h1 := getD_argmax_eq_listMax (lastLogits m ids) h
  have h2 := get_le_listMax (lastLogits m ids) j hj
  simp only [nextTok]
  rw [h1]
  exact h2

/-- Witness for C1: the greedy step of `mConst` on the sequence `[2]`. -/
theorem generation_step_greedy_argmax_witness :
    nextTok mConst [2] < (lastLogits mConst [2]).length ∧
    (∀ j, (hj : j < (lastLogits mConst [2]).length) →
      (lastLogits mConst [2]).get ⟨j, hj⟩ ≤
        (lastLogits mConst [2]).getD (nextTok mConst [2]) 0) ∧
    generateLoop mConst 0 5 [2] =
      (if nextTok mConst [2] = 0 then [2] ++ [nextTok mConst [2]]
       else generateLoop mConst 0 4 ([2] ++ [nextTok mConst [2]])) :=
  generation_step_greedy_argmax mConst [2] 0 4 (by decide)

/-- C2: when the model never emits the end-of-sequence id, generation
with `max_new_tokens = N` follows the full greedy trajectory, producing
exactly `N` new tokens and then stopping. -/
theorem generate_exact_new_tokens (m : Model) (eos : Nat) (p : List Nat) (N : Nat)
    (h : ∀ ids, nextTok m ids ≠ eos) :
    (generate m eos p N).1 = traj m p N ∧
    ((generate m eos p N).1).length = p.length + N :=
  ⟨generate_eq_traj_of_no_eos m eos p N h, generate_length_of_no_eos m eos p N h⟩

/-- Witness for C2: `mConst` always emits token 1, so decoding 3 tokens
from the length-1 prompt `[5]` with end-of-sequence id 0 yields 4 ids. -/
theorem generate_exact_new_tokens_witness :
    (generate mConst 0 [5] 3).1 = traj mConst [5] 3 ∧
    ((generate mConst 0 [5] 3).1).length = [5].length + 3 :=
  generate_exact_new_tokens mConst 0 [5] 3
    (fun ids => by rw [nextTok_mConst]; decide)

/-- C3: if the model first emits the end-of-sequence id at step `k < N`,
the generation loop stops at step `k`: the output is the `k`-step greedy
trajectory (whose last appended id is the end-of-sequence id) and its
length is the prompt length plus `k`. -/
theorem generate_stops_at_first_eos (m : Model) (eos : Nat) (p : List Nat) (k N : Nat)
    (hk : 1 ≤ k) (hkN : k < N)
    (hne : ∀ j, j + 1 < k → nextTok m (traj m p j) ≠ eos)
    (heq : nextTok m (traj m p (k - 1)) = eos) :
    (generate m eos p N).1 = traj m p k ∧
    ((generate m eos p N).1).length = p.length + k := by
  obtain ⟨k2, rfl⟩ : ∃ k2, k = k2 + 1 := ⟨k - 1, by omega⟩
  have heq2 : nextTok m (traj m p k2) = eos := by simpa using heq
  have hne2 : ∀ j, j < k2 → nextTok m (traj m p j) ≠ eos := fun j hj =>
    hne j (by omega)
  have hcongr := generateLoop_congr m.evalMode m eos (fun ids => rfl) N p
  have hmain := generateLoop_first_eos m eos k2 N p hne2 heq2 (by omega)
  constructor
  · show generateLoop m.evalMode eos N p = traj m p (k2 + 1)
    rw [hcongr, hmain]
  · show (generateLoop m.evalMode eos N p).length = p.length + (k2 + 1)
    rw [hcongr, hmain, traj_length]

/-- Witness for C3: decoding from the prompt `[7]` with `mEos2` and
end-of-sequence id 0 first emits 0 at step 2 of 5, so the output has
length 1 + 2. -/
theorem generate_stops_at_first_eos_witness :
    (generate mEos2 0 [7] 5).1 = traj mEos2 [7] 2 ∧
    ((generate mEos2 0 [7] 5).1).length = [7].length + 2 :=
  generate_stops_at_first_eos mEos2 0 [7] 2 5 (by decide) (by decide)
    (fun j hj => by
      have hj0 : j = 0 := by omega
      subst hj0
      decide)
    (by decide)

theorem zip_getD_snd {α β : Type} :
    ∀ (l1 : List α) (l2 : List β) (i : Nat) (d1 : α) (d2 : β),
      i < l1.length → i < l2.length →
      ((l1.zip l2).getD i (d1, d2)).2 = l2.getD i d2 := by
  intro l1
  induction l1 with
  | nil => intro l2 i d1 d2 h1 _; simp at h1
  | cons x t ih =>
    intro l2 i d1 d2 h1 h2
    cases l2 with
    | nil => simp at h2
    | cons y t2 =>
      cases i with
      | zero => rfl
      | succ i2 =>
        simp only [List.zip_cons_cons, List.getD_cons_succ]
        exact ih t2 i2 d1 d2 (by simpa using h1) (by simpa using h2)

/-- C4 counterexample: for the training batch `[3, 4]`, the cross-entropy
target paired with the logits at position 0 is the token at position 0
(the id 3), not the token at position 1 (the id 4): the comparison the
training loop computes is not shifted. -/
theorem training_target_shifted_cex :
    ((lossPairs mD [3, 4]).getD 0 ([], 0)).2 ≠ [3, 4].getD 1 0 := by
  decide

/-- C4 (amended): the training batch pairs the sequence with itself as
both input and target, and the cross-entropy target for the logits at
position `i` is the token id at the same position `i` (no shift). -/
theorem training_target_same_position (m : Model) (ids : List Nat) (i : Nat)
    (h1 : i < (m.forward ids).length) (h2 : i < ids.length) :
    ((lossPairs m ids).getD i ([], 0)).2 = ids.getD i 0 :=
  zip_getD_snd (m.forward ids) ids i [] 0 h1 h2

/-- Witness for the amended C4 at the batch `[3, 4]`, position 0. -/
theorem training_target_same_position_witness :
    ((lossPairs mD [3, 4]).getD 0 ([], 0)).2 = [3, 4].getD 0 0 :=
  training_target_same_position mD [3, 4] 0 (by decide) (by decide)

/-- C5: the generation loop is deterministic in the weights and the
prompt: two models with the same parameters and the same architecture —
whatever their incidental mode flags — produce identical output id
sequences on the same prompt and budget. -/
theorem generate_two_runs_identical (m1 m2 : Model) (eos : Nat) (p : List Nat)
    (N : Nat) (hparams : m1.params = m2.params) (harch : m1.arch = m2.arch) :
    (generate m1 eos p N).1 = (generate m2 eos p N).1 := by
  have h : ∀ ids, nextTok m1.evalMode ids = nextTok m2.evalMode ids := by
    intro ids
    show argmax ((m1.arch m1.params ids).getLastD []) =
      argmax ((m2.arch m2.params ids).getLastD [])
    rw [hparams, harch]
  exact generateLoop_congr m1.evalMode m2.evalMode eos h N p

/-- Witness for C5: `mConst` and `mConstEval` share weights and
architecture and decode identically. -/
theorem generate_two_runs_identical_witness :
    (generate mConst 3 [1, 2] 4).1 = (generate mConstEval 3 [1, 2] 4).1 :=
  generate_two_runs_identical mConst mConstEval 3 [1, 2] 4 rfl rfl

/-- The identity optimizer, for concrete runs of the training loop. -/
def opt0 : Optimizer :=
  { step := fun p _ => p }

/-- C6 counterexample: with the break threshold 10 of the demo, a dataset
of 3 batches gets 3 optimizer updates while a dataset of 20 batches gets
11, so the number of updates is not independent of the dataset size. -/
theorem training_updates_fixed_count_cex :
    (trainLoop opt0 10 mD (List.replicate 3 [])).2 ≠
      (trainLoop opt0 10 mD (List.replicate 20 [])).2 := by
  decide

/-- C6 (amended): with break threshold `cap` (10 in the demo), the
training loop performs exactly `min (cap + 1) (dataset size)` optimizer
updates and then returns control. -/
theorem training_updates_min_cap_dataset (opt : Optimizer) (cap : Nat) (m : Model)
    (batches : List (List Nat)) :
    (trainLoop opt cap m batches).2 = min (cap + 1) batches.length := by
  show (trainLoopAux opt cap 0 m batches).2 = _
  rw [trainLoopAux_count]
  simp

/-- C7: for a configuration with at least one layer, constructing the
model succeeds exactly when the head count evenly divides the embedding
width; a non-dividing pair makes construction fail with a configuration
error instead of proceeding silently. -/
theorem model_init_requires_divisibility (cfg : GazelleConfig)
    (hl : 0 < cfg.n_layer) :
    (GazelleModel.init cfg).isOk = true ↔ cfg.n_head ∣ cfg.n_embd := by
  by_cases hmod : cfg.n_embd % cfg.n_head = 0
  · have hb := buildLayers_ok cfg.n_embd cfg.n_head hmod cfg.n_layer
    constructor
    · intro _
      exact Nat.dvd_of_mod_eq_zero hmod
    · intro _
      simp [GazelleModel.init, hb, Bind.bind, Except.bind, Except.isOk, Except.toBool]
  · have hb := buildLayers_error cfg.n_embd cfg.n_head hmod cfg.n_layer hl
    constructor
    · intro hok
      exfalso
      simp [GazelleModel.init, hb, Bind.bind, Except.bind, Except.isOk, Except.toBool] at hok
    · intro hdvd
      exact absurd (Nat.mod_eq_zero_of_dvd hdvd) hmod

/-- Witness for C7 at the notebook's own configuration: 12 layers, 24
heads, embedding width 1536, and indeed 24 divides 1536 so construction
succeeds. -/
theorem model_init_requires_divisibility_witness :
    (GazelleModel.init defaultConfig).isOk = true ↔
      defaultConfig.n_head ∣ defaultConfig.n_embd :=
  model_init_requires_divisibility defaultConfig (by decide)

/-- C8: with no accelerator available, the environment guard stops the
run with the designated fatal error and nothing else happens — no dataset
load, no model construction, no tokenization; with an accelerator
present, no error is raised and both random sources are seeded with the
fixed seed 42 before anything else runs. -/
theorem environment_guard_fail_fast :
    (notebookTrace false).2 = some "GPU required" ∧
    (notebookTrace false).1 = [] ∧
    (notebookTrace true).2 = none ∧
    Event.torchSeeded 42 ∈ (notebookTrace true).1 ∧
    Event.npSeeded 42 ∈ (notebookTrace true).1 ∧
    (notebookTrace true).1.take 2 = [Event.torchSeeded 42, Event.npSeeded 42] := by
  decide

/-- C9: running the generation loop leaves the model unchanged except for
the evaluation-mode flag: the parameters (weight tensors) and the
architecture after the call are exactly those before it, for every
prompt, budget and end-of-sequence id. -/
theorem generate_preserves_params (m : Model) (eos : Nat) (p : List Nat) (N : Nat) :
    ((generate m eos p N).2).params = m.params ∧
    ((generate m eos p N).2).arch = m.arch :=
  ⟨rfl, rfl⟩

/-- C10: generation imposes no bound tied to the context length: the
training-time encode always truncates and pads to exactly `ctx_len`,
while the prompt tokenization inside `generate` is the raw id sequence,
and (for a model that never emits the end-of-sequence id) the decoded
sequence reaches prompt length plus `max_new_tokens` whatever `ctx_len`
is — no term of the bound mentions the context length. -/
theorem generate_unbounded_by_ctx_len (ctxLen padId : Nat) (tokens : List Nat)
    (m : Model) (eos : Nat) (p : List Nat) (N : Nat)
    (h : ∀ ids, nextTok m ids ≠ eos) :
    (encodeTrain ctxLen padId tokens).length = ctxLen ∧
    encodeGen p = p ∧
    ((generate m eos p N).1).length = p.length + N :=
  ⟨encodeTrain_length ctxLen padId tokens, rfl,
    generate_length_of_no_eos m eos p N h⟩

/-- Witness for C10: with context length 2, the training encode of
`[1, 2, 3]` has length 2, while decoding 4 tokens from the raw length-3
prompt `[8, 8, 8]` yields 7 ids, beyond the context length. -/
theorem generate_unbounded_by_ctx_len_witness :
    (encodeTrain 2 0 [1, 2, 3]).length = 2 ∧
    encodeGen [8, 8, 8] = [8, 8, 8] ∧
    ((generate mConst 0 [8, 8, 8] 4).1).length = [8, 8, 8].length + 4 :=
  generate_unbounded_by_ctx_len 2 0 [1, 2, 3] mConst 0 [8, 8, 8] 4
    (fun ids => by rw [nextTok_mConst]; decide)

end Gazelle
